import Mathlib

/-!
Verification development for the physics merge game in `game.js`
(`2048-tiny-creatures`).

The game state is embedded shallowly over the real numbers:

* A `Creature` carries the fields set by the JS `Creature` constructor
  (position, velocity, diameter `size`, `friction`, `restitution`, `mass`).
* JS objects are mutable and compared by reference (`creature !== this`),
  and the merge branch reassigns the global `creatures` array while the
  outer `forEach` keeps iterating the stale array object.  To model this,
  creatures live in a heap `ℕ → Creature` addressed by allocation ids;
  the `creatures` variable is a list of ids, and every creature ever
  constructed receives a fresh id from `nextId`.
* Every division in the source is modelled by `div?`, which returns
  `none` when the denominator is zero.  In JS such a division yields
  `Infinity` or `NaN`, which then contaminates all subsequent arithmetic;
  `none` propagating through `Option.bind` models exactly that
  contamination.  `Math.sqrt` is `Real.sqrt` (its argument here is always
  a sum of squares, hence nonnegative, so the JS NaN-on-negative case
  cannot arise).
* `Math.random()` draws are passed in as explicit parameters: a `Bool`
  coin for the `Math.random() < 0.5` size choice and a real `r ∈ [0,1)`
  for the horizontal drop kick.
* The canvas dimensions `CANVAS_WIDTH`/`CANVAS_HEIGHT` come from the DOM
  (not part of the repository source), so all definitions are
  parametrised by `W` and `H`.

The unused locals `angle`, `targetX`, `targetY` of `checkCollisions`
(lines 99–101 of the source) are dead code and are not modelled.
-/

namespace TinyCreatures

noncomputable section

/-- Source line 22: the tier ladder of creature diameters. -/
def CREATURE_SIZES : List ℝ :=
  [10, 20, 40, 80, 100, 120, 140, 160, 180, 200, 220, 240, 260, 280, 300]

/-- Source line 24. -/
def GAME_OVER_HEIGHT : ℝ := 0

/-- A circular body, with the fields assigned by the `Creature` constructor
(source lines 42–52). -/
@[ext]
structure Creature where
  x : ℝ
  y : ℝ
  vx : ℝ
  vy : ℝ
  size : ℝ
  friction : ℝ
  restitution : ℝ
  mass : ℝ

/-- The `Creature` constructor (source lines 42–52): velocity starts at zero,
`friction = 0.9`, `restitution = 0.3`, `mass = Math.PI * (size / 2) ** 2`. -/
def mkCreature (x y size : ℝ) : Creature :=
  { x := x, y := y, size := size, vx := 0, vy := 0,
    friction := 0.9, restitution := 0.3,
    mass := Real.pi * (size / 2) ^ 2 }

/-- Division as performed by the source: a zero denominator yields
`Infinity`/`NaN` in JS, modelled by `none`. -/
def div? (a b : ℝ) : Option ℝ := if b = 0 then none else some (a / b)

/-- The global mutable state of `game.js`: the object heap (ids model JS
reference identity), the id allocator, the `creatures` array (as ids), the
pending `currentCreature`, `score`, `bestScore` and the `gameOver` flag. -/
@[ext]
structure GState where
  heap : ℕ → Creature
  nextId : ℕ
  creatures : List ℕ
  current : Option Creature
  score : ℕ
  bestScore : ℕ
  gameOver : Bool

/-- Source line 105. -/
def slop : ℝ := 0.01

/-- Source line 104. -/
def percent : ℝ := 0.5

/-- Positional correction (source lines 103–113): push both bodies apart
along the center line, inversely weighted by mass, guarded by `slop`.
The division by `distance` happens only inside the guard; the division by
the mass sum (line 106) happens before it. -/
def positionalCorrection (self other : Creature) (dx dy distance minDistance : ℝ) :
    Option (Creature × Creature) :=
  (div? (max (minDistance - distance) 0) (self.mass + other.mass)).bind fun c0 =>
  let correction := c0 * percent
  if distance > slop then
    (div? dx distance).bind fun ux =>
    (div? dy distance).bind fun uy =>
    some ({ self with x := self.x + ux * correction * other.mass,
                      y := self.y + uy * correction * other.mass },
          { other with x := other.x - ux * correction * self.mass,
                       y := other.y - uy * correction * self.mass })
  else some (self, other)

/-- Impulse application (source lines 125–137): impulse along the collision
normal using the lesser restitution, applied inversely weighted by mass. -/
def applyImpulse (self other : Creature) (dx dy distance velocityAlongNormal : ℝ) :
    Option (Creature × Creature) :=
  let e := min self.restitution other.restitution
  let j := -(1 + e) * velocityAlongNormal
  (div? 1 self.mass).bind fun ia =>
  (div? 1 other.mass).bind fun ib =>
  (div? j (ia + ib)).bind fun impulse =>
  (div? dx distance).bind fun ux =>
  (div? dy distance).bind fun uy =>
  let impulseX := ux * impulse
  let impulseY := uy * impulse
  (div? impulseX self.mass).bind fun dvx1 =>
  (div? impulseY self.mass).bind fun dvy1 =>
  (div? impulseX other.mass).bind fun dvx2 =>
  (div? impulseY other.mass).bind fun dvy2 =>
  some ({ self with vx := self.vx + dvx1, vy := self.vy + dvy1 },
        { other with vx := other.vx - dvx2, vy := other.vy - dvy2 })

/-- The merge branch (source lines 139–158): build the next-tier creature at
the mass-weighted average position/velocity, push it, drop both sources from
the settled list by identity, add `indexOf(newSize) * 10` to the score. -/
def mergePair (selfId otherId : ℕ) (st : GState) : Option GState :=
  let self := st.heap selfId
  let other := st.heap otherId
  let newSize := CREATURE_SIZES.getD (CREATURE_SIZES.indexOf self.size + 1) 0
  (div? (self.x * self.mass + other.x * other.mass) (self.mass + other.mass)).bind fun newX =>
  (div? (self.y * self.mass + other.y * other.mass) (self.mass + other.mass)).bind fun newY =>
  (div? (self.vx * self.mass + other.vx * other.mass) (self.mass + other.mass)).bind fun newVx =>
  (div? (self.vy * self.mass + other.vy * other.mass) (self.mass + other.mass)).bind fun newVy =>
  some { st with
    heap := Function.update st.heap st.nextId
      { mkCreature newX newY newSize with vx := newVx, vy := newVy },
    nextId := st.nextId + 1,
    creatures := (st.creatures ++ [st.nextId]).filter (fun k => k != selfId && k != otherId),
    score := st.score + CREATURE_SIZES.indexOf newSize * 10 }

/-- Outcome of one iteration of the `for (let creature of creatures)` loop in
`checkCollisions`: either fall through to the next partner (`go`, carrying
whether this pair collided) or `return` out of the whole scan (`ret`). -/
inductive ScanOut where
  | go (st : GState) (collided : Bool)
  | ret (st : GState)

/-- One iteration of the collision loop body (source lines 89–161) of
creature `selfId` against partner `otherId`.  `creature !== this` is the id
test; `dx`, `dy`, `distance` are computed from the current heap and reused
unchanged by every later step, exactly as in the source. -/
def pairStep (selfId otherId : ℕ) (st : GState) : Option ScanOut :=
  if otherId = selfId then some (ScanOut.go st false) else
  let self := st.heap selfId
  let other := st.heap otherId
  let dx := self.x - other.x
  let dy := self.y - other.y
  let distance := Real.sqrt (dx * dx + dy * dy)
  let minDistance := (self.size + other.size) / 2
  if distance < minDistance then
    (positionalCorrection self other dx dy distance minDistance).bind fun pc =>
    let self1 := pc.1
    let other1 := pc.2
    let st1 : GState :=
      { st with heap := Function.update (Function.update st.heap selfId self1) otherId other1 }
    (div? ((self1.vx - other1.vx) * dx + (self1.vy - other1.vy) * dy) distance).bind
      fun velocityAlongNormal =>
    if velocityAlongNormal > 0 then some (ScanOut.go st1 true)
    else
      (applyImpulse self1 other1 dx dy distance velocityAlongNormal).bind fun ai =>
      let self2 := ai.1
      let other2 := ai.2
      let st2 : GState :=
        { st1 with heap := Function.update (Function.update st1.heap selfId self2) otherId other2 }
      if self2.size = other2.size ∧
          self2.size < CREATURE_SIZES.getD (CREATURE_SIZES.length - 1) 0 then
        (mergePair selfId otherId st2).map ScanOut.ret
      else some (ScanOut.go st2 true)
  else some (ScanOut.go st false)

/-- The anti-floating nudge after the loop (source lines 164–167). -/
def nudge (selfId : ℕ) (st : GState) (isColliding : Bool) : GState :=
  let c := st.heap selfId
  if isColliding = false ∧ |c.vy| < 0.5 then
    { st with heap := Function.update st.heap selfId { c with vy := c.vy + 0.1 } }
  else st

/-- The collision loop of `checkCollisions` over a fixed partner list,
accumulating `isColliding` and propagating the early `return` of the merge
branch. -/
def scanLoop (selfId : ℕ) : List ℕ → GState → Bool → Option GState
  | [], st, isColliding => some (nudge selfId st isColliding)
  | o :: rest, st, isColliding =>
    match pairStep selfId o st with
    | none => none
    | some (ScanOut.go st' f) => scanLoop selfId rest st' (isColliding || f)
    | some (ScanOut.ret st') => some st'

/-- `Creature.checkCollisions` (source lines 87–168): scan the current
`creatures` array (the list as it stands when the loop starts). -/
def checkCollisions (selfId : ℕ) (st : GState) : Option GState :=
  scanLoop selfId st.creatures st false

/-- The integration step of `Creature.update` (source lines 59–67): gravity,
friction and air-resistance damping, then position integration. -/
def integrate (c : Creature) : Creature :=
  let vx1 := c.vx * c.friction
  let vy1 := (c.vy + 0.5) * 0.99
  { c with vx := vx1, vy := vy1, x := c.x + vx1, y := c.y + vy1 }

/-- The boundary checks of `Creature.update` (source lines 69–82): clamp at
the left/right walls reflecting `vx`, then at the floor reflecting `vy`,
zeroing `vy` when the rebound speed is below `0.5`. -/
def applyBounds (W H : ℝ) (c : Creature) : Creature :=
  let c1 :=
    if c.x - c.size / 2 < 0 then
      { c with x := c.size / 2, vx := c.vx * -c.restitution }
    else if c.x + c.size / 2 > W then
      { c with x := W - c.size / 2, vx := c.vx * -c.restitution }
    else c
  if c1.y + c1.size / 2 > H then
    let vy1 := c1.vy * -c1.restitution
    { c1 with y := H - c1.size / 2, vy := if |vy1| < 0.5 then 0 else vy1 }
  else c1

/-- `Creature.update` (source lines 59–85) for the creature stored at
`selfId`: integrate, resolve boundaries, then run `checkCollisions`. -/
def creatureUpdate (W H : ℝ) (selfId : ℕ) (st : GState) : Option GState :=
  checkCollisions selfId
    { st with
      heap := Function.update st.heap selfId (applyBounds W H (integrate (st.heap selfId))) }

/-- The `creatures.forEach(creature => creature.update())` loop of the global
`update` (source lines 179–182).  JS `forEach` iterates the array object
captured at the call, so the loop runs over the ids present when the tick
started even when a merge reassigns the `creatures` variable mid-tick. -/
def tickBodies (W H : ℝ) : List ℕ → GState → Option GState
  | [], st => some st
  | i :: rest, st => (creatureUpdate W H i st).bind (tickBodies W H rest)

/-- The global `update` function (source lines 176–212), rendering omitted:
run every body, then the game-over check (lines 188–190), then the
best-score persistence inside the `if (gameOver)` branch (lines 192–197). -/
def update (W H : ℝ) (st : GState) : Option GState :=
  (tickBodies W H st.creatures st).bind fun st1 =>
  let go := st1.gameOver ||
    st1.creatures.any fun i =>
      decide ((st1.heap i).y - (st1.heap i).size / 2 ≤ GAME_OVER_HEIGHT)
  let st2 := { st1 with gameOver := go }
  some (if go then
    { st2 with bestScore := if st2.score > st2.bestScore then st2.score else st2.bestScore }
  else st2)

/-- `createNewCreature` (source lines 171–174): a pending creature at the
spawn point `(W / 2, 20)` whose size is tier 0 or tier 1 according to the
`Math.random() < 0.5` coin. -/
def createNewCreature (W : ℝ) (coin : Bool) : Creature :=
  mkCreature (W / 2) 20 (if coin then CREATURE_SIZES.getD 0 0 else CREATURE_SIZES.getD 1 0)

/-- `dropCreature` (source lines 215–226): no-op without a pending creature;
otherwise give it `vy = 5` and `vx = (r - 0.5) * 4` for the random draw
`r`, append it to the settled list, and spawn a new pending creature. -/
def dropCreature (W r : ℝ) (coin : Bool) (st : GState) : GState :=
  match st.current with
  | none => st
  | some c =>
    { st with
      heap := Function.update st.heap st.nextId { c with vy := 5, vx := (r - 0.5) * 4 },
      nextId := st.nextId + 1,
      creatures := st.creatures ++ [st.nextId],
      current := some (createNewCreature W coin) }

/-- `resetGame` (source lines 302–309): clear the settled list, leave
`GameOver`, zero the score, spawn a pending creature, and run `update`
once. -/
def resetGame (W H : ℝ) (coin : Bool) (st : GState) : Option GState :=
  update W H
    { st with creatures := [], gameOver := false, score := 0,
              current := some (createNewCreature W coin) }

/-- The `touchstart` listener (source lines 5–8): it calls `dropCreature`
unconditionally, with no `gameOver` test. -/
def touchstartHandler (W r : ℝ) (coin : Bool) (st : GState) : GState :=
  dropCreature W r coin st

/-- The `click` listener (source lines 237–247): reset when `gameOver`,
otherwise drop. -/
def clickHandler (W H r : ℝ) (coin : Bool) (st : GState) : Option GState :=
  if st.gameOver = true then resetGame W H coin st
  else some (dropCreature W r coin st)

/-- The `mousemove` listener (source lines 229–235): move the pending
creature horizontally, clamped to the arena minus its radius. -/
def mousemoveHandler (W mouseX : ℝ) (st : GState) : GState :=
  match st.current with
  | some c =>
    if st.gameOver = false then
      { st with current := some { c with x := max (c.size / 2) (min mouseX (W - c.size / 2)) } }
    else st
  | none => st

/-- The three keys handled by the `keydown` listener. -/
inductive Key where
  | left
  | right
  | space

/-- The `keydown` listener (source lines 250–265), guarded by
`!gameOver && currentCreature`. -/
def keydownHandler (W r : ℝ) (coin : Bool) (k : Key) (st : GState) : GState :=
  match st.current with
  | some c =>
    if st.gameOver = false then
      match k with
      | Key.left => { st with current := some { c with x := max (c.size / 2) (c.x - 10) } }
      | Key.right => { st with current := some { c with x := min (W - c.size / 2) (c.x + 10) } }
      | Key.space => dropCreature W r coin st
    else st
  | none => st

/-- The state right after the script's initialization (source lines 26–30
and 299): empty arena, a freshly spawned pending creature, zero score, the
persisted best score `b0` read from storage. -/
def initState (W : ℝ) (b0 : ℕ) (coin : Bool) : GState :=
  { heap := fun _ => mkCreature 0 0 0, nextId := 0, creatures := [],
    current := some (createNewCreature W coin), score := 0, bestScore := b0,
    gameOver := false }

/-- Reachable game states: the initial state, closed under the tick (which
the `requestAnimationFrame` chain only schedules while not in game over) and
the input listeners.  Random draws enter as the coin and the `r ∈ [0, 1)`
parameters. -/
inductive Reachable (W H : ℝ) (b0 : ℕ) : GState → Prop where
  | init (coin : Bool) : Reachable W H b0 (initState W b0 coin)
  | tick {st st' : GState} (h : Reachable W H b0 st) (hg : st.gameOver = false)
      (hstep : update W H st = some st') : Reachable W H b0 st'
  | click {st st' : GState} (h : Reachable W H b0 st) (coin : Bool) (r : ℝ)
      (hr0 : 0 ≤ r) (hr1 : r < 1)
      (hstep : clickHandler W H r coin st = some st') : Reachable W H b0 st'
  | touch {st : GState} (h : Reachable W H b0 st) (coin : Bool) (r : ℝ)
      (hr0 : 0 ≤ r) (hr1 : r < 1) :
      Reachable W H b0 (touchstartHandler W r coin st)
  | key {st : GState} (h : Reachable W H b0 st) (k : Key) (coin : Bool) (r : ℝ)
      (hr0 : 0 ≤ r) (hr1 : r < 1) :
      Reachable W H b0 (keydownHandler W r coin k st)
  | mouse {st : GState} (h : Reachable W H b0 st) (mouseX : ℝ) :
      Reachable W H b0 (mousemoveHandler W mouseX st)

/-! ### Basic lemmas about the embedding -/

lemma div?_of_ne (a b : ℝ) (h : b ≠ 0) : div? a b = some (a / b) := if_neg h

lemma div?_zero (a : ℝ) : div? a 0 = none := if_pos rfl

lemma update_collapse {α β : Type} [DecidableEq α] (f : α → β) (i j : α)
    (a b c e : β) :
    Function.update (Function.update (Function.update (Function.update f i a) j b) i c) j e =
      Function.update (Function.update f i c) j e := by
  funext k
  simp only [Function.update_apply]
  split_ifs <;> rfl

lemma pairStep_self (i : ℕ) (st : GState) : pairStep i i st = some (ScanOut.go st false) := by
  simp [pairStep]

lemma pairStep_far (i j : ℕ) (st : GState) (hij : j ≠ i)
    (h : ¬ Real.sqrt
        (((st.heap i).x - (st.heap j).x) * ((st.heap i).x - (st.heap j).x) +
         ((st.heap i).y - (st.heap j).y) * ((st.heap i).y - (st.heap j).y)) <
        ((st.heap i).size + (st.heap j).size) / 2) :
    pairStep i j st = some (ScanOut.go st false) := by
  simp only [pairStep, if_neg hij, if_neg h]

/-- Symbolic evaluation of `pairStep` in the colliding, non-separating case:
with the branch decisions supplied as hypotheses, the loop body reduces to
the corrected-and-impulsed pair followed by the merge test. -/
lemma pairStep_collide (i j : ℕ) (st : GState) (hij : j ≠ i)
    (self other : Creature) (hself : st.heap i = self) (hother : st.heap j = other)
    (d : ℝ)
    (hd : Real.sqrt ((self.x - other.x) * (self.x - other.x) +
          (self.y - other.y) * (self.y - other.y)) = d)
    (hcoll : d < (self.size + other.size) / 2)
    (hslop : slop < d)
    (hm1 : 0 < self.mass) (hm2 : 0 < other.mass)
    (hvan : ¬ (((self.vx - other.vx) * (self.x - other.x) +
               (self.vy - other.vy) * (self.y - other.y)) / d > 0)) :
    pairStep i j st =
      (let dx := self.x - other.x
       let dy := self.y - other.y
       let corr := max ((self.size + other.size) / 2 - d) 0 / (self.mass + other.mass) * percent
       let van := ((self.vx - other.vx) * dx + (self.vy - other.vy) * dy) / d
       let imp := -(1 + min self.restitution other.restitution) * van /
         (1 / self.mass + 1 / other.mass)
       let self2 : Creature :=
         { self with x := self.x + dx / d * corr * other.mass,
                     y := self.y + dy / d * corr * other.mass,
                     vx := self.vx + dx / d * imp / self.mass,
                     vy := self.vy + dy / d * imp / self.mass }
       let other2 : Creature :=
         { other with x := other.x - dx / d * corr * self.mass,
                      y := other.y - dy / d * corr * self.mass,
                      vx := other.vx - dx / d * imp / other.mass,
                      vy := other.vy - dy / d * imp / other.mass }
       let st2 : GState :=
         { st with heap := Function.update (Function.update st.heap i self2) j other2 }
       if self.size = other.size ∧
           self.size < CREATURE_SIZES.getD (CREATURE_SIZES.length - 1) 0 then
         (mergePair i j st2).map ScanOut.ret
       else some (ScanOut.go st2 true)) := by
  have hd0 : (0 : ℝ) < d := lt_trans (by norm_num [slop]) hslop
  have hdne : d ≠ 0 := ne_of_gt hd0
  have hmm : self.mass + other.mass ≠ 0 := by positivity
  have hinv : 1 / self.mass + 1 / other.mass ≠ 0 := by positivity
  have hm1' : self.mass ≠ 0 := ne_of_gt hm1
  have hm2' : other.mass ≠ 0 := ne_of_gt hm2
  simp only [pairStep, positionalCorrection, applyImpulse, hself, hother, hd,
    if_neg hij, if_pos hcoll, if_pos hslop, div?_of_ne _ _ hmm, div?_of_ne _ _ hdne,
    div?_of_ne _ _ hinv, div?_of_ne _ _ hm1', div?_of_ne _ _ hm2',
    Option.some_bind, if_neg hvan]
  rw [update_collapse]

/-- Symbolic evaluation of `mergePair` when the mass sum is nonzero. -/
lemma mergePair_eval (i j : ℕ) (st : GState) (self other : Creature)
    (hself : st.heap i = self) (hother : st.heap j = other)
    (hmm : self.mass + other.mass ≠ 0) :
    mergePair i j st = some { st with
      heap := Function.update st.heap st.nextId
        { mkCreature ((self.x * self.mass + other.x * other.mass) / (self.mass + other.mass))
                     ((self.y * self.mass + other.y * other.mass) / (self.mass + other.mass))
                     (CREATURE_SIZES.getD (CREATURE_SIZES.indexOf self.size + 1) 0) with
          vx := (self.vx * self.mass + other.vx * other.mass) / (self.mass + other.mass),
          vy := (self.vy * self.mass + other.vy * other.mass) / (self.mass + other.mass) },
      nextId := st.nextId + 1,
      creatures := (st.creatures ++ [st.nextId]).filter (fun k => k != i && k != j),
      score := st.score +
        CREATURE_SIZES.indexOf (CREATURE_SIZES.getD (CREATURE_SIZES.indexOf self.size + 1) 0) * 10 } := by
  simp only [mergePair, hself, hother, div?_of_ne _ _ hmm, Option.some_bind]

/-- A zero-distance pair: the slop guard skips the positional correction, but
the unguarded division by `distance` in the normal-velocity projection
(source line 120) is a division by zero. -/
lemma pairStep_coincident (i j : ℕ) (st : GState) (hij : j ≠ i)
    (hx : (st.heap i).x = (st.heap j).x) (hy : (st.heap i).y = (st.heap j).y)
    (hsz : 0 < (st.heap i).size + (st.heap j).size)
    (hm : (st.heap i).mass + (st.heap j).mass ≠ 0) :
    pairStep i j st = none := by
  have hslop : ¬ ((0 : ℝ) > slop) := by norm_num [slop]
  simp only [pairStep, positionalCorrection, if_neg hij, hx, hy, sub_self, mul_zero,
    zero_mul, add_zero, Real.sqrt_zero, if_pos (half_pos hsz), div?_of_ne _ _ hm,
    if_neg hslop, div?_zero, Option.some_bind, Option.none_bind]

/-! ### C1: the slop guard and division by zero -/

/-- A settled body used by the C1 failing input. -/
def c1A : Creature := { mkCreature 100 100 20 with vy := -0.5 }

/-- A second settled body at exactly the same center. -/
def c1B : Creature := mkCreature 100 100 20

/-- Heap for the C1 failing input. -/
def c1heap : ℕ → Creature :=
  fun k => if k = 0 then c1A else if k = 1 then c1B else mkCreature 0 0 0

/-- The C1 failing input: two finite settled bodies with coincident centers. -/
def c1st : GState :=
  { heap := c1heap, nextId := 2, creatures := [0, 1], current := none,
    score := 0, bestScore := 0, gameOver := false }

/-- C1: the claim that the slop threshold prevents division by zero anywhere in
the pairwise collision resolution is wrong on the code.  The slop guard covers
only the positional correction (source lines 108–113); the normal-velocity
projection at line 120 divides by `distance` unguarded.  Started from the
finite state `c1st` (two bodies with coincident centers, hence
`distance = 0 < minDistance`), the tick reaches `0 / 0` there: in JS this is
`NaN`, which then flows into the impulse and both bodies' velocities; in the
embedding the division by zero surfaces as `none`. -/
theorem c1_divzero_reaches_velocity_projection : update 400 600 c1st = none := by
  have hA : applyBounds 400 600 (integrate c1A) = { c1A with vy := 0 } := by
    norm_num [applyBounds, integrate, c1A, mkCreature]
  have h01 : pairStep 0 1
      { c1st with heap := Function.update c1st.heap 0 ({ c1A with vy := 0 }) } = none := by
    apply pairStep_coincident 0 1 _ (by norm_num)
    · simp [c1st, c1heap, c1A, c1B, mkCreature, Function.update_apply]
    · simp [c1st, c1heap, c1A, c1B, mkCreature, Function.update_apply]
    · norm_num [c1st, c1heap, c1A, c1B, mkCreature, Function.update_apply]
    · have : (0:ℝ) < Real.pi * (20 / 2) ^ 2 + Real.pi * (20 / 2) ^ 2 := by positivity
      simp only [c1st, c1heap, c1A, c1B, mkCreature, Function.update_apply]
      norm_num
      positivity
  have hcu : creatureUpdate 400 600 0 c1st = none := by
    have hh : c1st.heap 0 = c1A := rfl
    simp only [creatureUpdate, hh, hA, checkCollisions]
    simp only [scanLoop, pairStep_self, h01]
  simp only [update, show c1st.creatures = [0, 1] from rfl, tickBodies, hcu,
    Option.none_bind]

/-! ### C3: inputs accepted while in game over -/

/-- A game-over state with a pending creature (as after any lost run). -/
def c3st : GState := { initState 400 0 true with gameOver := true }

/-- C3: the claim that the only input transition accepted in `GameOver` is
reset is wrong on the code: the `touchstart` listener (source lines 5–8)
calls `dropCreature` with no `gameOver` test, so a touch during game over
appends the pending body to the settled list — the settled list changes with
no reset having occurred. -/
theorem c3_touchstart_drops_during_gameover :
    c3st.gameOver = true ∧ c3st.creatures = [] ∧
    (touchstartHandler 400 (1/2) true c3st).gameOver = true ∧
    (touchstartHandler 400 (1/2) true c3st).creatures = [0] ∧
    (touchstartHandler 400 (1/2) true c3st).creatures ≠ c3st.creatures := by
  refine ⟨rfl, rfl, rfl, rfl, ?_⟩
  simp [touchstartHandler, dropCreature, c3st, initState]

/-! ### C6: the drop contract -/

/-- C6: `dropCreature` is a silent no-op when no pending body exists; with a
pending body `c` and a random draw `r ∈ [0, 1]`, it appends exactly `c` (with
`vy = 5 > 0` downward and `vx = (r - 0.5) * 4`, bounded by `2` in absolute
value) to the settled list and immediately spawns a new pending creature. -/
theorem c6_drop_contract (W r : ℝ) (coin : Bool) (st : GState) :
    (st.current = none → dropCreature W r coin st = st) ∧
    (∀ c, st.current = some c → 0 ≤ r → r ≤ 1 →
      (dropCreature W r coin st).creatures = st.creatures ++ [st.nextId] ∧
      (dropCreature W r coin st).heap st.nextId = { c with vy := 5, vx := (r - 0.5) * 4 } ∧
      0 < ((dropCreature W r coin st).heap st.nextId).vy ∧
      |((dropCreature W r coin st).heap st.nextId).vx| ≤ 2 ∧
      (dropCreature W r coin st).current = some (createNewCreature W coin)) := by
  constructor
  · intro h
    simp [dropCreature, h]
  · intro c hc hr0 hr1
    refine ⟨by simp [dropCreature, hc], by simp [dropCreature, hc], ?_, ?_, by simp [dropCreature, hc]⟩
    · norm_num [dropCreature, hc]
    · simp only [dropCreature, hc, Function.update_same]
      rw [abs_le]
      constructor <;> nlinarith

/-- Witness for C6 at a concrete state (the initial state, whose pending
creature exists) with `r = 1/2`. -/
theorem c6_drop_contract_witness :
    (initState 400 0 true).current = some (createNewCreature 400 true) ∧
    (0:ℝ) ≤ 1/2 ∧ (1:ℝ)/2 ≤ 1 ∧
    ((dropCreature 400 (1/2) true (initState 400 0 true)).creatures =
        (initState 400 0 true).creatures ++ [(initState 400 0 true).nextId] ∧
      (dropCreature 400 (1/2) true (initState 400 0 true)).heap (initState 400 0 true).nextId =
        { createNewCreature 400 true with vy := 5, vx := ((1:ℝ)/2 - 0.5) * 4 } ∧
      0 < ((dropCreature 400 (1/2) true (initState 400 0 true)).heap
        (initState 400 0 true).nextId).vy ∧
      |((dropCreature 400 (1/2) true (initState 400 0 true)).heap
        (initState 400 0 true).nextId).vx| ≤ 2 ∧
      (dropCreature 400 (1/2) true (initState 400 0 true)).current =
        some (createNewCreature 400 true)) :=
  ⟨rfl, by norm_num, by norm_num,
    (c6_drop_contract 400 (1/2) true (initState 400 0 true)).2
      (createNewCreature 400 true) rfl (by norm_num) (by norm_num)⟩

/-! ### C9: reset -/

/-- C9: from any prior state (in particular any `GameOver` state), `resetGame`
produces the settled list `[]`, score `0`, state `Playing`, and a freshly
spawned pending creature — the prior settled bodies and score do not influence
any of these components. -/
theorem c9_reset_observable_state (W H : ℝ) (coin : Bool) (st : GState)
    (hgo : st.gameOver = true) :
    resetGame W H coin st =
      some { st with creatures := [], score := 0, gameOver := false,
                     current := some (createNewCreature W coin) } := by
  simp [resetGame, update, tickBodies]

/-- A concrete game-over state with leftover bodies and score. -/
def c9st : GState :=
  { initState 400 0 true with gameOver := true, score := 7, creatures := [3], nextId := 4 }

/-- Witness for C9 at a concrete game-over state. -/
theorem c9_reset_observable_state_witness :
    resetGame 400 600 true c9st =
      some { c9st with creatures := [], score := 0, gameOver := false,
                       current := some (createNewCreature 400 true) } :=
  c9_reset_observable_state 400 600 true c9st rfl

/-! ### C10: conservation by the correction and impulse sub-steps -/

/-- C10: for a colliding pair whose center distance exceeds the slop
threshold, the positional correction preserves the mass-weighted sum of the
two positions (hence their mass-weighted centroid, the masses being
unchanged), and the impulse application preserves the total momentum, in both
coordinates: the contributions are equal and opposite, scaled inversely by
each body's mass. -/
theorem c10_correction_impulse_conservation (self other : Creature)
    (dx dy distance minDistance van : ℝ)
    (hdist : distance = Real.sqrt (dx * dx + dy * dy))
    (hcoll : distance < minDistance)
    (hslop : slop < distance)
    (hm1 : 0 < self.mass) (hm2 : 0 < other.mass) :
    (∀ p : Creature × Creature,
      positionalCorrection self other dx dy distance minDistance = some p →
      p.1.mass * p.1.x + p.2.mass * p.2.x = self.mass * self.x + other.mass * other.x ∧
      p.1.mass * p.1.y + p.2.mass * p.2.y = self.mass * self.y + other.mass * other.y) ∧
    (∀ p : Creature × Creature,
      applyImpulse self other dx dy distance van = some p →
      p.1.mass * p.1.vx + p.2.mass * p.2.vx = self.mass * self.vx + other.mass * other.vx ∧
      p.1.mass * p.1.vy + p.2.mass * p.2.vy = self.mass * self.vy + other.mass * other.vy) := by
  have hdne : distance ≠ 0 := ne_of_gt (lt_trans (by norm_num [slop]) hslop)
  have hmm : self.mass + other.mass ≠ 0 := by positivity
  have hinv : 1 / self.mass + 1 / other.mass ≠ 0 := by positivity
  have hm1' : self.mass ≠ 0 := ne_of_gt hm1
  have hm2' : other.mass ≠ 0 := ne_of_gt hm2
  constructor
  · intro p hp
    simp only [positionalCorrection, div?_of_ne _ _ hmm, div?_of_ne _ _ hdne,
      if_pos hslop, Option.some_bind, Option.some.injEq] at hp
    subst hp
    constructor <;> (simp only []; ring)
  · intro p hp
    simp only [applyImpulse, div?_of_ne _ _ hm1', div?_of_ne _ _ hm2',
      div?_of_ne _ _ hinv, div?_of_ne _ _ hdne, Option.some_bind,
      Option.some.injEq] at hp
    subst hp
    constructor <;> (simp only []; field_simp; ring)

/-- Witness for C10: a concrete colliding pair of size-20 creatures 4 units
apart horizontally. -/
theorem c10_correction_impulse_conservation_witness :
    ((4:ℝ) = Real.sqrt ((-4) * (-4) + 0 * 0) ∧ (4:ℝ) < 20 ∧ slop < 4 ∧
      0 < ({ mkCreature 100 100 20 with vy := -0.5 } : Creature).mass ∧
      0 < (mkCreature 104 100 20).mass) ∧
    ((∀ p : Creature × Creature,
      positionalCorrection { mkCreature 100 100 20 with vy := -0.5 } (mkCreature 104 100 20)
        (-4) 0 4 20 = some p →
      p.1.mass * p.1.x + p.2.mass * p.2.x =
        ({ mkCreature 100 100 20 with vy := -0.5 } : Creature).mass *
          ({ mkCreature 100 100 20 with vy := -0.5 } : Creature).x +
        (mkCreature 104 100 20).mass * (mkCreature 104 100 20).x ∧
      p.1.mass * p.1.y + p.2.mass * p.2.y =
        ({ mkCreature 100 100 20 with vy := -0.5 } : Creature).mass *
          ({ mkCreature 100 100 20 with vy := -0.5 } : Creature).y +
        (mkCreature 104 100 20).mass * (mkCreature 104 100 20).y) ∧
    (∀ p : Creature × Creature,
      applyImpulse { mkCreature 100 100 20 with vy := -0.5 } (mkCreature 104 100 20)
        (-4) 0 4 0 = some p →
      p.1.mass * p.1.vx + p.2.mass * p.2.vx =
        ({ mkCreature 100 100 20 with vy := -0.5 } : Creature).mass *
          ({ mkCreature 100 100 20 with vy := -0.5 } : Creature).vx +
        (mkCreature 104 100 20).mass * (mkCreature 104 100 20).vx ∧
      p.1.mass * p.1.vy + p.2.mass * p.2.vy =
        ({ mkCreature 100 100 20 with vy := -0.5 } : Creature).mass *
          ({ mkCreature 100 100 20 with vy := -0.5 } : Creature).vy +
        (mkCreature 104 100 20).mass * (mkCreature 104 100 20).vy)) := by
  have h4 : Real.sqrt ((-4 : ℝ) * (-4) + 0 * 0) = 4 := by
    rw [show ((-4 : ℝ) * (-4) + 0 * 0) = 4 ^ 2 by norm_num, Real.sqrt_sq (by norm_num)]
  have hm1 : (0:ℝ) < ({ mkCreature 100 100 20 with vy := -0.5 } : Creature).mass := by
    simp [mkCreature]
    positivity
  have hm2 : (0:ℝ) < (mkCreature 104 100 20).mass := by
    simp [mkCreature]
    positivity
  exact ⟨⟨h4.symm, by norm_num, by norm_num [slop], hm1, hm2⟩,
    c10_correction_impulse_conservation _ _ (-4) 0 4 20 0 h4.symm (by norm_num)
      (by norm_num [slop]) hm1 hm2⟩

/-! ### The tier ladder -/

lemma sizes_pos_le : ∀ s ∈ CREATURE_SIZES, 0 < s ∧ s ≤ 300 := by
  intro s hs
  fin_cases hs <;> norm_num

set_option maxHeartbeats 1000000 in
/-- Stepping one tier up from any non-topmost ladder size lands on the ladder,
at the next index. -/
lemma sizes_next : ∀ s ∈ CREATURE_SIZES, s < 300 →
    CREATURE_SIZES.getD (CREATURE_SIZES.indexOf s + 1) 0 ∈ CREATURE_SIZES ∧
    CREATURE_SIZES.indexOf (CREATURE_SIZES.getD (CREATURE_SIZES.indexOf s + 1) 0) =
      CREATURE_SIZES.indexOf s + 1 := by
  intro s hs hlt
  fin_cases hs <;> norm_num [CREATURE_SIZES, List.indexOf_cons] at hlt ⊢

lemma top_size : CREATURE_SIZES.getD (CREATURE_SIZES.length - 1) 0 = 300 := rfl

/-! ### C2: the merge effect -/

/-- C2: for distinct settled bodies `i ≠ j` of equal, non-topmost ladder size
(and a fresh `nextId`, as the allocator guarantees), `mergePair` removes both
from the settled list, appends one new body whose size is the next tier and
whose position and velocity are the mass-weighted averages of the two, and
adds exactly `(tier index of the new size) * 10` to the score. -/
theorem c2_merge_effect (st : GState) (i j : ℕ) (hij : j ≠ i)
    (hi : i ∈ st.creatures) (hj : j ∈ st.creatures)
    (hni : st.nextId ≠ i) (hnj : st.nextId ≠ j)
    (hsize : (st.heap i).size = (st.heap j).size)
    (hmem : (st.heap i).size ∈ CREATURE_SIZES)
    (htop : (st.heap i).size < 300)
    (hm1 : 0 < (st.heap i).mass) (hm2 : 0 < (st.heap j).mass) :
    ∃ st', mergePair i j st = some st' ∧
      st'.creatures = st.creatures.filter (fun k => k != i && k != j) ++ [st.nextId] ∧
      (st'.heap st.nextId).size =
        CREATURE_SIZES.getD (CREATURE_SIZES.indexOf (st.heap i).size + 1) 0 ∧
      (st'.heap st.nextId).size ∈ CREATURE_SIZES ∧
      CREATURE_SIZES.indexOf (st'.heap st.nextId).size =
        CREATURE_SIZES.indexOf (st.heap i).size + 1 ∧
      (st'.heap st.nextId).x =
        ((st.heap i).x * (st.heap i).mass + (st.heap j).x * (st.heap j).mass) /
          ((st.heap i).mass + (st.heap j).mass) ∧
      (st'.heap st.nextId).y =
        ((st.heap i).y * (st.heap i).mass + (st.heap j).y * (st.heap j).mass) /
          ((st.heap i).mass + (st.heap j).mass) ∧
      (st'.heap st.nextId).vx =
        ((st.heap i).vx * (st.heap i).mass + (st.heap j).vx * (st.heap j).mass) /
          ((st.heap i).mass + (st.heap j).mass) ∧
      (st'.heap st.nextId).vy =
        ((st.heap i).vy * (st.heap i).mass + (st.heap j).vy * (st.heap j).mass) /
          ((st.heap i).mass + (st.heap j).mass) ∧
      st'.score = st.score + (CREATURE_SIZES.indexOf (st.heap i).size + 1) * 10 := by
  have hmm : (st.heap i).mass + (st.heap j).mass ≠ 0 := by positivity
  have hnext := sizes_next _ hmem htop
  refine ⟨_, mergePair_eval i j st _ _ rfl rfl hmm, ?_, ?_, ?_, ?_, ?_, ?_, ?_, ?_, ?_⟩
  · simp only [List.filter_append]
    congr 1
    have hb : (st.nextId != i && st.nextId != j) = true := by
      simp [bne_iff_ne, hni, hnj]
    simp [List.filter, hb]
  · simp [Function.update_same, mkCreature]
  · simpa [Function.update_same, mkCreature] using hnext.1
  · simpa [Function.update_same, mkCreature] using hnext.2
  · simp [Function.update_same, mkCreature]
  · simp [Function.update_same, mkCreature]
  · simp [Function.update_same, mkCreature]
  · simp [Function.update_same, mkCreature]
  · simp only []
    rw [hnext.2]

/-- Heap of the concrete merge witness: two size-20 creatures. -/
def c2heap : ℕ → Creature :=
  fun k => if k = 0 then { mkCreature 100 100 20 with vy := -0.5 }
           else if k = 1 then mkCreature 104 100 20 else mkCreature 0 0 0

/-- Concrete state for the C2 witness. -/
def c2st : GState :=
  { heap := c2heap, nextId := 2, creatures := [0, 1], current := none,
    score := 0, bestScore := 0, gameOver := false }

/-- Witness for C2 at the concrete pair of size-20 bodies. -/
theorem c2_merge_effect_witness :
    ((1 : ℕ) ≠ 0 ∧ 0 ∈ c2st.creatures ∧ 1 ∈ c2st.creatures ∧ c2st.nextId ≠ 0 ∧ c2st.nextId ≠ 1 ∧
      (c2st.heap 0).size = (c2st.heap 1).size ∧ (c2st.heap 0).size ∈ CREATURE_SIZES ∧
      (c2st.heap 0).size < 300 ∧ 0 < (c2st.heap 0).mass ∧ 0 < (c2st.heap 1).mass) ∧
    (∃ st', mergePair 0 1 c2st = some st' ∧
      st'.creatures = c2st.creatures.filter (fun k => k != 0 && k != 1) ++ [c2st.nextId] ∧
      (st'.heap c2st.nextId).size =
        CREATURE_SIZES.getD (CREATURE_SIZES.indexOf (c2st.heap 0).size + 1) 0 ∧
      (st'.heap c2st.nextId).size ∈ CREATURE_SIZES ∧
      CREATURE_SIZES.indexOf (st'.heap c2st.nextId).size =
        CREATURE_SIZES.indexOf (c2st.heap 0).size + 1 ∧
      (st'.heap c2st.nextId).x =
        ((c2st.heap 0).x * (c2st.heap 0).mass + (c2st.heap 1).x * (c2st.heap 1).mass) /
          ((c2st.heap 0).mass + (c2st.heap 1).mass) ∧
      (st'.heap c2st.nextId).y =
        ((c2st.heap 0).y * (c2st.heap 0).mass + (c2st.heap 1).y * (c2st.heap 1).mass) /
          ((c2st.heap 0).mass + (c2st.heap 1).mass) ∧
      (st'.heap c2st.nextId).vx =
        ((c2st.heap 0).vx * (c2st.heap 0).mass + (c2st.heap 1).vx * (c2st.heap 1).mass) /
          ((c2st.heap 0).mass + (c2st.heap 1).mass) ∧
      (st'.heap c2st.nextId).vy =
        ((c2st.heap 0).vy * (c2st.heap 0).mass + (c2st.heap 1).vy * (c2st.heap 1).mass) /
          ((c2st.heap 0).mass + (c2st.heap 1).mass) ∧
      st'.score = c2st.score + (CREATURE_SIZES.indexOf (c2st.heap 0).size + 1) * 10) := by
  have hm0 : (0:ℝ) < (c2st.heap 0).mass := by
    simp [c2st, c2heap, mkCreature]
    positivity
  have hm1 : (0:ℝ) < (c2st.heap 1).mass := by
    simp [c2st, c2heap, mkCreature]
    positivity
  have hmem : (c2st.heap 0).size ∈ CREATURE_SIZES := by
    norm_num [c2st, c2heap, mkCreature, CREATURE_SIZES]
  refine ⟨⟨by norm_num, by simp [c2st], by simp [c2st], by norm_num [c2st],
    by norm_num [c2st], rfl, hmem, by norm_num [c2st, c2heap, mkCreature], hm0, hm1⟩, ?_⟩
  exact c2_merge_effect c2st 0 1 (by norm_num) (by simp [c2st]) (by simp [c2st])
    (by norm_num [c2st]) (by norm_num [c2st]) rfl hmem
    (by norm_num [c2st, c2heap, mkCreature]) hm0 hm1

/-! ### C5: boundary resolution -/

/-- C5 (amended): the boundary-resolution step of `Creature.update` clamps a
body whose post-integration position crosses a wall or the floor back inside
the bounds and reflects the offending velocity component scaled by the body's
restitution; a floor rebound below the `0.5` threshold is zeroed *within this
step*.  (The claim's further assertion that the vertical speed is still
exactly zero at the end of the tick fails: the anti-floating nudge of
`checkCollisions` then adds `0.1`, see the counterexample.) -/
theorem c5_boundary_resolution (W H : ℝ) (b : Creature) :
    (b.x - b.size / 2 < 0 →
      (applyBounds W H b).x = b.size / 2 ∧ (applyBounds W H b).vx = b.vx * -b.restitution) ∧
    (¬ b.x - b.size / 2 < 0 → b.x + b.size / 2 > W →
      (applyBounds W H b).x = W - b.size / 2 ∧ (applyBounds W H b).vx = b.vx * -b.restitution) ∧
    (b.y + b.size / 2 > H →
      (applyBounds W H b).y = H - b.size / 2 ∧
      (|b.vy * -b.restitution| < 0.5 → (applyBounds W H b).vy = 0) ∧
      (¬ |b.vy * -b.restitution| < 0.5 → (applyBounds W H b).vy = b.vy * -b.restitution)) ∧
    (0 < b.size → b.size ≤ W →
      b.size / 2 ≤ (applyBounds W H b).x ∧ (applyBounds W H b).x ≤ W - b.size / 2) ∧
    ((applyBounds W H b).y ≤ H - b.size / 2 ∨ ¬ b.y + b.size / 2 > H) := by
  simp only [applyBounds]
  split_ifs with h1 h2 h3 h4 h5 h6 h7 h8 <;>
    refine ⟨fun ha => ?_, fun ha hb => ?_, fun ha => ?_, fun ha hb => ?_, ?_⟩ <;>
    simp_all <;>
    first
      | rfl
      | linarith
      | (intro h; linarith)
      | (intro h; rfl)

/-- The body used by the C5 counterexample and witness: driven far below the
floor, with a small vertical speed. -/
def c5c : Creature := { mkCreature 200 620 20 with vy := 0.5 }

/-- Witness for C5's amended theorem: the floor branch at the concrete body,
with both antecedents discharged. -/
theorem c5_boundary_resolution_witness :
    (integrate c5c).y + (integrate c5c).size / 2 > 600 ∧
    |(integrate c5c).vy * -(integrate c5c).restitution| < 0.5 ∧
    (applyBounds 400 600 (integrate c5c)).y = 600 - (integrate c5c).size / 2 ∧
    (applyBounds 400 600 (integrate c5c)).vy = 0 := by
  have h1 : (integrate c5c).y + (integrate c5c).size / 2 > 600 := by
    norm_num [integrate, c5c, mkCreature]
  have h2 : |(integrate c5c).vy * -(integrate c5c).restitution| < 0.5 := by
    norm_num [integrate, c5c, mkCreature, abs_lt]
  exact ⟨h1, h2, ((c5_boundary_resolution 400 600 (integrate c5c)).2.2.1 h1).1,
    ((c5_boundary_resolution 400 600 (integrate c5c)).2.2.1 h1).2.1 h2⟩

/-- Heap for the C5 counterexample. -/
def c5heap : ℕ → Creature := fun k => if k = 0 then c5c else mkCreature 0 0 0

/-- The C5 counterexample state: a single settled body below the floor. -/
def c5st : GState :=
  { heap := c5heap, nextId := 1, creatures := [0], current := none,
    score := 0, bestScore := 0, gameOver := false }

/-- C5 counterexample: the claim says that when the rebound speed at the floor
is below the threshold the vertical velocity is, after one tick, *exactly
zero*.  On the concrete lone body `c5c` (which crosses the floor after
integration, with rebound speed `0.297 < 0.5`), the tick ends with
`vy = 0.1 ≠ 0`: the boundary step zeroes `vy`, but the anti-floating nudge of
`checkCollisions` (source lines 164–167) then adds `0.1`. -/
theorem c5_tick_vy_not_zero :
    (integrate c5c).y + c5c.size / 2 > 600 ∧
    |(integrate c5c).vy * -c5c.restitution| < 0.5 ∧
    ((update 400 600 c5st).map (fun out => (out.heap 0).vy)).getD 37 = 0.1 ∧
    ((update 400 600 c5st).map (fun out => (out.heap 0).y)).getD 37 = 590 ∧
    (600 : ℝ) - c5c.size / 2 = 590 ∧
    (0.1 : ℝ) ≠ 0 := by
  have hB : applyBounds 400 600 (integrate c5c) = { c5c with y := 590, vy := 0 } := by
    norm_num [applyBounds, integrate, c5c, mkCreature, abs_lt]
  have hsz : c5c.size = 20 := rfl
  refine ⟨by norm_num [integrate, c5c, mkCreature],
    by norm_num [integrate, c5c, mkCreature, abs_lt],
    ?_, ?_, by norm_num [c5c, mkCreature], by norm_num⟩ <;>
  · norm_num [update, tickBodies, creatureUpdate, checkCollisions, scanLoop, pairStep_self,
      nudge, c5st, c5heap, hB, hsz, Function.update_apply]

/-! ### C7: merges within a tick -/

/-- `mergePair` evaluation phrased on the state's own heap reads, for `rw`. -/
lemma mergePair_eval' (i j : ℕ) (st : GState)
    (hm : (st.heap i).mass + (st.heap j).mass ≠ 0) :
    mergePair i j st = some { st with
      heap := Function.update st.heap st.nextId
        { mkCreature (((st.heap i).x * (st.heap i).mass + (st.heap j).x * (st.heap j).mass) /
                        ((st.heap i).mass + (st.heap j).mass))
                     (((st.heap i).y * (st.heap i).mass + (st.heap j).y * (st.heap j).mass) /
                        ((st.heap i).mass + (st.heap j).mass))
                     (CREATURE_SIZES.getD (CREATURE_SIZES.indexOf (st.heap i).size + 1) 0) with
          vx := ((st.heap i).vx * (st.heap i).mass + (st.heap j).vx * (st.heap j).mass) /
                  ((st.heap i).mass + (st.heap j).mass),
          vy := ((st.heap i).vy * (st.heap i).mass + (st.heap j).vy * (st.heap j).mass) /
                  ((st.heap i).mass + (st.heap j).mass) },
      nextId := st.nextId + 1,
      creatures := (st.creatures ++ [st.nextId]).filter (fun k => k != i && k != j),
      score := st.score + CREATURE_SIZES.indexOf
        (CREATURE_SIZES.getD (CREATURE_SIZES.indexOf (st.heap i).size + 1) 0) * 10 } :=
  mergePair_eval i j st _ _ rfl rfl hm

lemma update_congr {f g : ℕ → Creature} (a : ℕ) {v w : Creature} (hf : f = g) (hv : v = w) :
    Function.update f a v = Function.update g a w := by rw [hf, hv]

lemma idx20 : CREATURE_SIZES.indexOf (20:ℝ) = 1 := by
  norm_num [CREATURE_SIZES, List.indexOf_cons]

lemma idx40 : CREATURE_SIZES.indexOf (40:ℝ) = 2 := by
  norm_num [CREATURE_SIZES, List.indexOf_cons]

lemma getD_next20 : CREATURE_SIZES.getD (CREATURE_SIZES.indexOf (20:ℝ) + 1) 0 = 40 := by
  rw [idx20]
  rfl

lemma getElem_next20 : CREATURE_SIZES[CREATURE_SIZES.indexOf (20:ℝ) + 1]?.getD 0 = 40 := by
  rw [idx20]
  rfl

def c7A : Creature := { mkCreature 100 100 20 with vy := -0.5 }
def c7B : Creature := { mkCreature 104 100 20 with vy := -0.5 }
def c7C : Creature := { mkCreature 84 100 20 with vy := -0.5 }

def c7heap : ℕ → Creature :=
  fun k => if k = 0 then c7A else if k = 1 then c7B else if k = 2 then c7C
           else mkCreature 0 0 0

def c7st : GState :=
  { heap := c7heap, nextId := 3, creatures := [0, 1, 2], current := none,
    score := 0, bestScore := 0, gameOver := false }

def c7A1 : Creature := { c7A with vy := 0 }

def stA : GState := { c7st with heap := Function.update c7st.heap 0 c7A1 }

def c7A2 : Creature := { c7A with x := 96, vy := 0 }
def c7B2 : Creature := { c7B with x := 108 }
def c7M : Creature := { mkCreature 102 100 40 with vy := -0.25 }

def stM : GState :=
  { heap := Function.update (Function.update (Function.update stA.heap 0 c7A2) 1 c7B2) 3 c7M,
    nextId := 4, creatures := [2, 3], current := none, score := 20, bestScore := 0,
    gameOver := false }

lemma c7_h01 : pairStep 0 1 stA = some (ScanOut.ret stM) := by
  have e0 : stA.heap 0 = c7A1 := rfl
  have e1 : stA.heap 1 = c7B := rfl
  have hd4 : Real.sqrt ((c7A1.x - c7B.x) * (c7A1.x - c7B.x) +
      (c7A1.y - c7B.y) * (c7A1.y - c7B.y)) = 4 := by
    rw [show (c7A1.x - c7B.x) * (c7A1.x - c7B.x) + (c7A1.y - c7B.y) * (c7A1.y - c7B.y) = (4:ℝ)^2
      by norm_num [c7A1, c7A, c7B, mkCreature]]
    exact Real.sqrt_sq (by norm_num)
  have hm1 : 0 < c7A1.mass := by
    simp only [c7A1, c7A, mkCreature]
    positivity
  have hm2 : 0 < c7B.mass := by
    simp only [c7B, mkCreature]
    positivity
  have hvan : ¬ (((c7A1.vx - c7B.vx) * (c7A1.x - c7B.x) +
      (c7A1.vy - c7B.vy) * (c7A1.y - c7B.y)) / 4 > 0) := by
    norm_num [c7A1, c7A, c7B, mkCreature]
  rw [pairStep_collide 0 1 stA (by norm_num) c7A1 c7B e0 e1 4 hd4
    (by norm_num [c7A1, c7A, c7B, mkCreature]) (by norm_num [slop]) hm1 hm2 hvan]
  simp only []
  rw [if_pos ⟨(by norm_num [c7A1, c7A, c7B, mkCreature] : c7A1.size = c7B.size),
    (by norm_num [c7A1, c7A, mkCreature, CREATURE_SIZES] :
      c7A1.size < CREATURE_SIZES.getD (CREATURE_SIZES.length - 1) 0)⟩]
  rw [mergePair_eval' 0 1]
  · simp only [Option.map_some', Option.some.injEq, ScanOut.ret.injEq]
    refine GState.ext ?_ ?_ ?_ ?_ ?_ ?_ ?_
    · show Function.update _ _ _ = stM.heap
      refine update_congr _ (update_congr _ (update_congr _ rfl ?_) ?_) ?_
      · ext <;> (simp only [c7A2, c7A1, c7A, c7B, mkCreature, percent, max_def]; try norm_num) <;>
          (field_simp; ring)
      · ext <;> (simp only [c7B2, c7A1, c7A, c7B, mkCreature, percent, max_def]; try norm_num) <;>
          (field_simp; ring)
      · ext <;> (simp only [Function.update_apply, c7M, c7A1, c7A, c7B, mkCreature, percent,
          max_def]; try norm_num [CREATURE_SIZES, List.indexOf_cons]) <;>
          (try field_simp) <;> (try ring)
    · rfl
    · rfl
    · rfl
    · show _ + CREATURE_SIZES.indexOf _ * 10 = stM.score
      simp only [Function.update_apply]
      norm_num [c7A1, c7A, mkCreature, idx20, idx40, stA, c7st, stM, CREATURE_SIZES,
        List.indexOf_cons]
    · rfl
    · rfl
  · show _ + _ ≠ 0
    simp only [Function.update_apply]
    norm_num [c7A1, c7A, c7B, mkCreature]
    positivity

lemma sqrt_eval (a b : ℝ) (hb : 0 ≤ b) (h : a = b ^ 2) : Real.sqrt a = b := by
  rw [h, Real.sqrt_sq hb]

lemma not_lt_of_sqrt (a b c : ℝ) (hb : 0 ≤ b) (h : a = b ^ 2) (hc : c ≤ b) :
    ¬ Real.sqrt a < c := by
  rw [h, Real.sqrt_sq hb]
  exact not_lt.mpr hc

lemma c7_hup0 : creatureUpdate 400 600 0 c7st = some stM := by
  have hb : applyBounds 400 600 (integrate (c7st.heap 0)) = c7A1 := by
    norm_num [show c7st.heap 0 = c7A from rfl, applyBounds, integrate, c7A, c7A1, mkCreature]
  simp only [creatureUpdate, hb, checkCollisions]
  show scanLoop 0 [0, 1, 2] stA false = some stM
  simp only [scanLoop, pairStep_self, c7_h01, Bool.or_false]

def c7B3 : Creature := { c7B with x := 108, vy := 0 }

def stB0 : GState := { stM with heap := Function.update stM.heap 1 c7B3 }

def c7B4 : Creature := { c7B with x := 117.6, vy := 0 }
def c7M2 : Creature := { c7M with x := 99.6 }

def stB : GState :=
  { stB0 with heap := Function.update (Function.update stB0.heap 1 c7B4) 3 c7M2 }

lemma c7_h12 : pairStep 1 2 stB0 = some (ScanOut.go stB0 false) := by
  refine pairStep_far 1 2 stB0 (by norm_num) ?_
  rw [show stB0.heap 1 = c7B3 from rfl, show stB0.heap 2 = c7C from rfl]
  exact not_lt_of_sqrt _ 24 _ (by norm_num)
    (by norm_num [c7B3, c7B, c7C, mkCreature])
    (by norm_num [c7B3, c7B, c7C, mkCreature])

lemma c7_h13 : pairStep 1 3 stB0 = some (ScanOut.go stB true) := by
  have e1 : stB0.heap 1 = c7B3 := rfl
  have e3 : stB0.heap 3 = c7M := rfl
  have hd6 : Real.sqrt ((c7B3.x - c7M.x) * (c7B3.x - c7M.x) +
      (c7B3.y - c7M.y) * (c7B3.y - c7M.y)) = 6 :=
    sqrt_eval _ 6 (by norm_num) (by norm_num [c7B3, c7B, c7M, mkCreature])
  have hm1 : 0 < c7B3.mass := by
    simp only [c7B3, c7B, mkCreature]
    positivity
  have hm2 : 0 < c7M.mass := by
    simp only [c7M, mkCreature]
    positivity
  have hvan : ¬ (((c7B3.vx - c7M.vx) * (c7B3.x - c7M.x) +
      (c7B3.vy - c7M.vy) * (c7B3.y - c7M.y)) / 6 > 0) := by
    norm_num [c7B3, c7B, c7M, mkCreature]
  rw [pairStep_collide 1 3 stB0 (by norm_num) c7B3 c7M e1 e3 6 hd6
    (by norm_num [c7B3, c7B, c7M, mkCreature]) (by norm_num [slop]) hm1 hm2 hvan]
  simp only []
  rw [if_neg (by norm_num [c7B3, c7B, c7M, mkCreature] :
    ¬ (c7B3.size = c7M.size ∧ c7B3.size < CREATURE_SIZES.getD (CREATURE_SIZES.length - 1) 0))]
  simp only [Option.some.injEq, ScanOut.go.injEq]
  refine ⟨GState.ext ?_ rfl rfl rfl rfl rfl rfl, trivial⟩
  show Function.update _ _ _ = stB.heap
  refine update_congr _ (update_congr _ rfl ?_) ?_
  · ext <;> simp only [c7B4, c7B3, c7B, c7M, mkCreature, percent, max_def] <;> try norm_num
    all_goals (field_simp; ring)
  · ext <;> simp only [c7M2, c7B3, c7B, c7M, mkCreature, percent, max_def] <;> try norm_num
    all_goals (field_simp; ring)

lemma c7_hup1 : creatureUpdate 400 600 1 stM = some stB := by
  have hb : applyBounds 400 600 (integrate (stM.heap 1)) = c7B3 := by
    norm_num [show stM.heap 1 = c7B2 from rfl, applyBounds, integrate, c7B2, c7B, c7B3,
      mkCreature]
  simp only [creatureUpdate, hb, checkCollisions]
  show scanLoop 1 [2, 3] stB0 false = some stB
  simp only [scanLoop, c7_h12, c7_h13, Bool.or_false, Bool.or_true]
  simp [nudge]

def c7C1 : Creature := { c7C with vy := 0 }

def stC0 : GState := { stB with heap := Function.update stB.heap 2 c7C1 }

def c7C2 : Creature := { c7C with x := 78.24, vy := 0 }
def c7M3 : Creature := { c7M2 with x := 101.04 }

def stC : GState :=
  { stC0 with heap := Function.update (Function.update stC0.heap 2 c7C2) 3 c7M3 }

lemma c7_h23 : pairStep 2 3 stC0 = some (ScanOut.go stC true) := by
  have e2 : stC0.heap 2 = c7C1 := rfl
  have e3 : stC0.heap 3 = c7M2 := rfl
  have hd : Real.sqrt ((c7C1.x - c7M2.x) * (c7C1.x - c7M2.x) +
      (c7C1.y - c7M2.y) * (c7C1.y - c7M2.y)) = 15.6 :=
    sqrt_eval _ 15.6 (by norm_num) (by norm_num [c7C1, c7C, c7M2, c7M, mkCreature])
  have hm1 : 0 < c7C1.mass := by
    simp only [c7C1, c7C, mkCreature]
    positivity
  have hm2 : 0 < c7M2.mass := by
    simp only [c7M2, c7M, mkCreature]
    positivity
  have hvan : ¬ (((c7C1.vx - c7M2.vx) * (c7C1.x - c7M2.x) +
      (c7C1.vy - c7M2.vy) * (c7C1.y - c7M2.y)) / 15.6 > 0) := by
    norm_num [c7C1, c7C, c7M2, c7M, mkCreature]
  rw [pairStep_collide 2 3 stC0 (by norm_num) c7C1 c7M2 e2 e3 15.6 hd
    (by norm_num [c7C1, c7C, c7M2, c7M, mkCreature]) (by norm_num [slop]) hm1 hm2 hvan]
  simp only []
  rw [if_neg (by norm_num [c7C1, c7C, c7M2, c7M, mkCreature] :
    ¬ (c7C1.size = c7M2.size ∧ c7C1.size < CREATURE_SIZES.getD (CREATURE_SIZES.length - 1) 0))]
  simp only [Option.some.injEq, ScanOut.go.injEq]
  refine ⟨GState.ext ?_ rfl rfl rfl rfl rfl rfl, trivial⟩
  show Function.update _ _ _ = stC.heap
  refine update_congr _ (update_congr _ rfl ?_) ?_
  · ext <;> simp only [c7C2, c7C1, c7C, c7M2, c7M, mkCreature, percent, max_def] <;> try norm_num
    all_goals (field_simp; ring)
  · ext <;> simp only [c7M3, c7M2, c7C1, c7C, c7M, mkCreature, percent, max_def] <;> try norm_num
    all_goals (field_simp; ring)

lemma c7_hup2 : creatureUpdate 400 600 2 stB = some stC := by
  have hb : applyBounds 400 600 (integrate (stB.heap 2)) = c7C1 := by
    norm_num [show stB.heap 2 = c7C from rfl, applyBounds, integrate, c7C, c7C1, mkCreature]
  simp only [creatureUpdate, hb, checkCollisions]
  show scanLoop 2 [2, 3] stC0 false = some stC
  simp only [scanLoop, pairStep_self, c7_h23, Bool.or_false, Bool.or_true]
  simp [nudge]

lemma c7_htick : update 400 600 c7st = some stC := by
  simp only [update, show c7st.creatures = [0, 1, 2] from rfl, tickBodies,
    c7_hup0, c7_hup1, c7_hup2, Option.some_bind]
  norm_num [show stC.creatures = [2, 3] from rfl, show stC.heap 2 = c7C2 from rfl,
    show stC.heap 3 = c7M3 from rfl, show stC.gameOver = false from rfl,
    c7C2, c7C, c7M3, c7M2, c7M, mkCreature, GAME_OVER_HEIGHT]
  rfl

/-- The C7 claim as stated: for every pair of equal-size settled bodies below
the topmost tier whose center distance is below the sum of radii at the start
of a tick, exactly one merge occurs for that pair during the tick.  A merge of
the pair removes both bodies from the settled list (see `mergePair`), so the
claim entails that neither id is settled after the tick. -/
def C7Statement : Prop :=
  ∀ (W H : ℝ) (st st' : GState) (i j : ℕ),
    st.gameOver = false →
    i ∈ st.creatures → j ∈ st.creatures → i ≠ j →
    (st.heap i).size = (st.heap j).size →
    (st.heap i).size < CREATURE_SIZES.getD (CREATURE_SIZES.length - 1) 0 →
    Real.sqrt (((st.heap i).x - (st.heap j).x) * ((st.heap i).x - (st.heap j).x) +
      ((st.heap i).y - (st.heap j).y) * ((st.heap i).y - (st.heap j).y)) <
      ((st.heap i).size + (st.heap j).size) / 2 →
    update W H st = some st' →
    i ∉ st'.creatures ∧ j ∉ st'.creatures

/-- C7 counterexample: the claim fails on a three-body state.  In `c7st`,
both pairs (A,B) and (A,C) qualify at the start of the tick (equal size 20,
centers 4 resp. 16 apart), but A's scan merges A with B first and returns; the
pair (A,C) never merges — C (id 2) is still settled, unchanged in size, after
the tick. -/
theorem c7_pair_merge_not_exact : ¬ C7Statement := by
  intro h
  have h02 := h 400 600 c7st stC 0 2 rfl
    (by show (0:ℕ) ∈ [0, 1, 2]; norm_num)
    (by show (2:ℕ) ∈ [0, 1, 2]; norm_num)
    (by norm_num)
    rfl
    (by rw [show c7st.heap 0 = c7A from rfl, top_size]; norm_num [c7A, mkCreature])
    (by
      rw [show c7st.heap 0 = c7A from rfl, show c7st.heap 2 = c7C from rfl,
        sqrt_eval _ 16 (by norm_num) (by norm_num [c7A, c7C, mkCreature])]
      norm_num [c7A, c7C, mkCreature])
    c7_htick
  exact h02.2 (by show (2:ℕ) ∈ [2, 3]; norm_num)

/-- C7 (amended): after a body merges, it performs no further collision
checks that tick — its scan returns immediately, so the partners after the
merging one are never examined (the scan result does not depend on them).  A
qualifying pair merges at most once, and only if neither member was already
consumed by an earlier merge in the same tick (see the counterexample). -/
theorem c7_merge_stops_scan (selfId o : ℕ) (rest1 rest2 : List ℕ) (st : GState) (fl : Bool)
    (h : ∃ st', pairStep selfId o st = some (ScanOut.ret st')) :
    scanLoop selfId (o :: rest1) st fl = scanLoop selfId (o :: rest2) st fl := by
  obtain ⟨st', h⟩ := h
  simp [scanLoop, h]

/-- Witness for C7's amended theorem: the concrete A–B merge of the
counterexample state discharges the hypothesis. -/
theorem c7_merge_stops_scan_witness :
    (∃ st', pairStep 0 1 stA = some (ScanOut.ret st')) ∧
    scanLoop 0 (1 :: [2]) stA false = scanLoop 0 (1 :: []) stA false :=
  ⟨⟨stM, c7_h01⟩, c7_merge_stops_scan 0 1 [2] [] stA false ⟨stM, c7_h01⟩⟩

/-! ### Structural lemmas for C4 and C8 -/

/-- The state carried by a loop-iteration outcome. -/
def ScanOut.state : ScanOut → GState
  | ScanOut.go st _ => st
  | ScanOut.ret st => st

lemma integrate_size (c : Creature) : (integrate c).size = c.size := rfl

lemma applyBounds_size (W H : ℝ) (c : Creature) : (applyBounds W H c).size = c.size := by
  simp only [applyBounds]
  split_ifs <;> rfl

lemma nudge_fields (i : ℕ) (st : GState) (f : Bool) :
    (nudge i st f).creatures = st.creatures ∧ (nudge i st f).nextId = st.nextId ∧
    (nudge i st f).score = st.score ∧ (nudge i st f).current = st.current ∧
    (nudge i st f).gameOver = st.gameOver ∧ (nudge i st f).bestScore = st.bestScore ∧
    (∀ k, ((nudge i st f).heap k).size = (st.heap k).size) := by
  simp only [nudge]
  split_ifs with h
  · refine ⟨rfl, rfl, rfl, rfl, rfl, rfl, fun k => ?_⟩
    rcases eq_or_ne k i with rfl | hk
    · simp
    · simp [Function.update_noteq hk]
  · exact ⟨rfl, rfl, rfl, rfl, rfl, rfl, fun k => rfl⟩

lemma positionalCorrection_some (self other : Creature) (dx dy d m : ℝ)
    (p : Creature × Creature) (h : positionalCorrection self other dx dy d m = some p) :
    p.1.size = self.size ∧ p.2.size = other.size := by
  unfold positionalCorrection at h
  rw [Option.bind_eq_some] at h
  obtain ⟨c0, hc0, h⟩ := h
  split at h
  · rw [Option.bind_eq_some] at h
    obtain ⟨ux, hux, h⟩ := h
    rw [Option.bind_eq_some] at h
    obtain ⟨uy, huy, h⟩ := h
    simp only [Option.some.injEq] at h
    subst h
    exact ⟨rfl, rfl⟩
  · simp only [Option.some.injEq] at h
    subst h
    exact ⟨rfl, rfl⟩

lemma applyImpulse_some (self other : Creature) (dx dy d van : ℝ)
    (p : Creature × Creature) (h : applyImpulse self other dx dy d van = some p) :
    p.1.size = self.size ∧ p.2.size = other.size := by
  unfold applyImpulse at h
  rw [Option.bind_eq_some] at h
  obtain ⟨ia, _, h⟩ := h
  rw [Option.bind_eq_some] at h
  obtain ⟨ib, _, h⟩ := h
  rw [Option.bind_eq_some] at h
  obtain ⟨imp, _, h⟩ := h
  rw [Option.bind_eq_some] at h
  obtain ⟨ux, _, h⟩ := h
  rw [Option.bind_eq_some] at h
  obtain ⟨uy, _, h⟩ := h
  rw [Option.bind_eq_some] at h
  obtain ⟨d1, _, h⟩ := h
  rw [Option.bind_eq_some] at h
  obtain ⟨d2, _, h⟩ := h
  rw [Option.bind_eq_some] at h
  obtain ⟨d3, _, h⟩ := h
  rw [Option.bind_eq_some] at h
  obtain ⟨d4, _, h⟩ := h
  simp only [Option.some.injEq] at h
  subst h
  exact ⟨rfl, rfl⟩

lemma mergePair_some (i j : ℕ) (st st' : GState) (h : mergePair i j st = some st') :
    st'.creatures = (st.creatures ++ [st.nextId]).filter (fun k => k != i && k != j) ∧
    st'.nextId = st.nextId + 1 ∧
    st'.score = st.score + CREATURE_SIZES.indexOf
      (CREATURE_SIZES.getD (CREATURE_SIZES.indexOf (st.heap i).size + 1) 0) * 10 ∧
    st'.current = st.current ∧ st'.gameOver = st.gameOver ∧ st'.bestScore = st.bestScore ∧
    (st'.heap st.nextId).size =
      CREATURE_SIZES.getD (CREATURE_SIZES.indexOf (st.heap i).size + 1) 0 ∧
    (∀ k, k ≠ st.nextId → st'.heap k = st.heap k) := by
  unfold mergePair at h
  rw [Option.bind_eq_some] at h
  obtain ⟨nx, _, h⟩ := h
  rw [Option.bind_eq_some] at h
  obtain ⟨ny, _, h⟩ := h
  rw [Option.bind_eq_some] at h
  obtain ⟨nvx, _, h⟩ := h
  rw [Option.bind_eq_some] at h
  obtain ⟨nvy, _, h⟩ := h
  simp only [Option.some.injEq] at h
  subst h
  refine ⟨rfl, rfl, rfl, rfl, rfl, rfl, by simp [mkCreature], fun k hk => ?_⟩
  simp [Function.update_noteq hk]

lemma update_pair_sizes (h : ℕ → Creature) (i j : ℕ) (a b : Creature)
    (ha : a.size = (h i).size) (hb : b.size = (h j).size) (k : ℕ) :
    ((Function.update (Function.update h i a) j b) k).size = (h k).size := by
  rcases eq_or_ne k j with rfl | hkj
  · simp [hb]
  · rcases eq_or_ne k i with rfl | hki
    · simp [Function.update_noteq hkj, ha]
    · simp [Function.update_noteq hkj, Function.update_noteq hki]

/-- Structural characterization of a successful loop iteration: either the
body falls through (registry components untouched, no size changes), or it
reaches the merge branch from an intermediate state with the same registry
components and sizes, with the merge's precondition holding there. -/
lemma pairStep_some (i j : ℕ) (st : GState) (out : ScanOut)
    (h : pairStep i j st = some out) :
    (∃ st1 f, out = ScanOut.go st1 f ∧
      st1.creatures = st.creatures ∧ st1.nextId = st.nextId ∧ st1.score = st.score ∧
      st1.current = st.current ∧ st1.gameOver = st.gameOver ∧ st1.bestScore = st.bestScore ∧
      (∀ k, (st1.heap k).size = (st.heap k).size)) ∨
    (∃ st2 st', out = ScanOut.ret st' ∧ mergePair i j st2 = some st' ∧
      st2.creatures = st.creatures ∧ st2.nextId = st.nextId ∧ st2.score = st.score ∧
      st2.current = st.current ∧ st2.gameOver = st.gameOver ∧ st2.bestScore = st.bestScore ∧
      (∀ k, (st2.heap k).size = (st.heap k).size) ∧
      (st2.heap i).size = (st2.heap j).size ∧
      (st2.heap i).size < CREATURE_SIZES.getD (CREATURE_SIZES.length - 1) 0) := by
  unfold pairStep at h
  split at h
  · left
    simp only [Option.some.injEq] at h
    exact ⟨st, false, h.symm, rfl, rfl, rfl, rfl, rfl, rfl, fun k => rfl⟩
  · rename_i hij
    simp only [] at h
    split at h
    case isFalse =>
      left
      simp only [Option.some.injEq] at h
      exact ⟨st, false, h.symm, rfl, rfl, rfl, rfl, rfl, rfl, fun k => rfl⟩
    case isTrue =>
      rw [Option.bind_eq_some] at h
      obtain ⟨pc, hpc, h⟩ := h
      obtain ⟨hpc1, hpc2⟩ := positionalCorrection_some _ _ _ _ _ _ _ hpc
      rw [Option.bind_eq_some] at h
      obtain ⟨van, _, h⟩ := h
      split at h
      · left
        simp only [Option.some.injEq] at h
        refine ⟨_, true, h.symm, rfl, rfl, rfl, rfl, rfl, rfl, fun k => ?_⟩
        exact update_pair_sizes _ _ _ _ _ hpc1 hpc2 k
      · rw [Option.bind_eq_some] at h
        obtain ⟨ai, hai, h⟩ := h
        obtain ⟨hai1, hai2⟩ := applyImpulse_some _ _ _ _ _ _ _ hai
        split at h
        case isTrue hcond =>
          right
          rw [Option.map_eq_some'] at h
          obtain ⟨stm, hstm, hout⟩ := h
          have hsz : ∀ k,
              ((Function.update (Function.update
                (Function.update (Function.update st.heap i pc.1) j pc.2) i ai.1) j ai.2) k).size
                = (st.heap k).size := by
            intro k
            rw [update_collapse]
            exact update_pair_sizes _ _ _ _ _ (hai1.trans hpc1) (hai2.trans hpc2) k
          refine ⟨_, stm, hout.symm, hstm, rfl, rfl, rfl, rfl, rfl, rfl, hsz, ?_, ?_⟩
          · have hij' : i ≠ j := fun hh => hij hh.symm
            simpa [Function.update_apply, hij'] using hcond.1
          · have hij' : i ≠ j := fun hh => hij hh.symm
            simpa [Function.update_apply, hij'] using hcond.2
        case isFalse =>
          left
          simp only [Option.some.injEq] at h
          refine ⟨_, true, h.symm, rfl, rfl, rfl, rfl, rfl, rfl, fun k => ?_⟩
          rw [update_collapse]
          exact update_pair_sizes _ _ _ _ _ (hai1.trans hpc1) (hai2.trans hpc2) k

/-- The C4 invariant: settled ids are allocated, every allocated creature's
size is on the tier ladder, and the pending creature is tier 0 or tier 1. -/
def SizeInv (st : GState) : Prop :=
  (∀ i ∈ st.creatures, i < st.nextId) ∧
  (∀ i, i < st.nextId → (st.heap i).size ∈ CREATURE_SIZES) ∧
  (∀ c, st.current = some c →
    c.size = CREATURE_SIZES.getD 0 0 ∨ c.size = CREATURE_SIZES.getD 1 0)

lemma pairStep_sizeInv (i j : ℕ) (st : GState) (out : ScanOut)
    (hi : i < st.nextId) (hinv : SizeInv st) (h : pairStep i j st = some out) :
    SizeInv out.state ∧ st.nextId ≤ out.state.nextId ∧ out.state.current = st.current := by
  rcases pairStep_some _ _ _ _ h with
    ⟨st1, f1, rfl, hc, hn, hs, hcur, hg, hb, hsz⟩ |
    ⟨st2, st', rfl, hm, hc, hn, hs, hcur, hg, hb, hsz, hsame, hlt⟩
  · refine ⟨⟨?_, ?_, ?_⟩, le_of_eq hn.symm, hcur⟩
    · intro k hk
      rw [show (ScanOut.go st1 f1).state = st1 from rfl] at hk ⊢
      rw [hn]
      exact hinv.1 k (hc ▸ hk)
    · intro k hk
      rw [show (ScanOut.go st1 f1).state = st1 from rfl] at hk ⊢
      rw [hsz k]
      exact hinv.2.1 k (hn ▸ hk)
    · intro c hcs
      rw [show (ScanOut.go st1 f1).state = st1 from rfl] at hcs
      exact hinv.2.2 c (hcur ▸ hcs)
  · obtain ⟨mc, mn, ms, mcur, mg, mb, mhs, mrest⟩ := mergePair_some _ _ _ _ hm
    have htop : (st.heap i).size < 300 := by
      rw [← hsz i]
      rw [top_size] at hlt
      exact hlt
    have hmem : (st.heap i).size ∈ CREATURE_SIZES := hinv.2.1 i hi
    have hnext := sizes_next _ hmem htop
    refine ⟨⟨?_, ?_, ?_⟩, ?_, ?_⟩
    · intro k hk
      rw [show (ScanOut.ret st').state = st' from rfl] at hk ⊢
      rw [mc] at hk
      have hk' := List.mem_append.mp (List.mem_filter.mp hk).1
      rw [mn, hn]
      rcases hk' with hk' | hk'
      · exact lt_trans (hinv.1 k (hc ▸ hk')) (Nat.lt_succ_self _)
      · simp only [List.mem_singleton] at hk'
        rw [hk', hn]
        exact Nat.lt_succ_self _
    · intro k hk
      rw [show (ScanOut.ret st').state = st' from rfl] at hk ⊢
      rcases eq_or_ne k st2.nextId with rfl | hkn
      · rw [mhs, hsz i]
        exact hnext.1
      · rw [mrest k hkn, hsz k]
        refine hinv.2.1 k ?_
        rw [mn, hn] at hk
        rw [hn] at hkn
        omega
    · intro c hcs
      rw [show (ScanOut.ret st').state = st' from rfl] at hcs
      exact hinv.2.2 c (hcur ▸ mcur ▸ hcs)
    · rw [show (ScanOut.ret st').state = st' from rfl, mn, hn]
      exact Nat.le_succ _
    · rw [show (ScanOut.ret st').state = st' from rfl, mcur, hcur]

lemma scanLoop_sizeInv (selfId : ℕ) (l : List ℕ) (st : GState) (fl : Bool) (res : GState)
    (hself : selfId < st.nextId) (hinv : SizeInv st)
    (h : scanLoop selfId l st fl = some res) :
    SizeInv res ∧ st.nextId ≤ res.nextId ∧ res.current = st.current := by
  induction l generalizing st fl with
  | nil =>
    simp only [scanLoop, Option.some.injEq] at h
    subst h
    obtain ⟨c1, c2, c3, c4, c5, c6, c7⟩ := nudge_fields selfId st fl
    refine ⟨⟨?_, ?_, ?_⟩, le_of_eq c2.symm, c4⟩
    · intro k hk
      rw [c2]
      exact hinv.1 k (c1 ▸ hk)
    · intro k hk
      rw [c7 k]
      exact hinv.2.1 k (c2 ▸ hk)
    · intro c hcs
      exact hinv.2.2 c (c4 ▸ hcs)
  | cons o rest ih =>
    simp only [scanLoop] at h
    cases hps : pairStep selfId o st with
    | none =>
      rw [hps] at h
      simp at h
    | some out =>
      rw [hps] at h
      obtain ⟨hinv1, hmono, hcur⟩ := pairStep_sizeInv selfId o st out hself hinv hps
      cases out with
      | go st1 f1 =>
        simp only [] at h
        obtain ⟨r1, r2, r3⟩ := ih st1 (fl || f1) (lt_of_lt_of_le hself hmono) hinv1 h
        exact ⟨r1, le_trans hmono r2, r3.trans hcur⟩
      | ret st' =>
        simp only [Option.some.injEq] at h
        subst h
        exact ⟨hinv1, hmono, hcur⟩

lemma creatureUpdate_sizeInv (W H : ℝ) (selfId : ℕ) (st res : GState)
    (hself : selfId < st.nextId) (hinv : SizeInv st)
    (h : creatureUpdate W H selfId st = some res) :
    SizeInv res ∧ st.nextId ≤ res.nextId ∧ res.current = st.current := by
  unfold creatureUpdate checkCollisions at h
  refine scanLoop_sizeInv selfId _
    { st with heap := Function.update st.heap selfId (applyBounds W H (integrate (st.heap selfId))) }
    false res hself ⟨hinv.1, ?_, hinv.2.2⟩ h
  intro k hk
  rcases eq_or_ne k selfId with rfl | hne
  · simp only [Function.update_same, applyBounds_size, integrate_size]
    exact hinv.2.1 k hk
  · simp only [Function.update_noteq hne]
    exact hinv.2.1 k hk

lemma tickBodies_sizeInv (W H : ℝ) (l : List ℕ) (st res : GState)
    (hl : ∀ o ∈ l, o < st.nextId) (hinv : SizeInv st)
    (h : tickBodies W H l st = some res) :
    SizeInv res ∧ st.nextId ≤ res.nextId ∧ res.current = st.current := by
  induction l generalizing st with
  | nil =>
    simp only [tickBodies, Option.some.injEq] at h
    subst h
    exact ⟨hinv, le_refl _, rfl⟩
  | cons o rest ih =>
    simp only [tickBodies] at h
    rw [Option.bind_eq_some] at h
    obtain ⟨st1, h1, h⟩ := h
    obtain ⟨r1, r2, r3⟩ := creatureUpdate_sizeInv W H o st st1 (hl o (by simp)) hinv h1
    obtain ⟨q1, q2, q3⟩ := ih st1 (fun o' ho' => lt_of_lt_of_le (hl o' (by simp [ho'])) r2) r1 h
    exact ⟨q1, le_trans r2 q2, q3.trans r3⟩

lemma update_sizeInv (W H : ℝ) (st res : GState) (hinv : SizeInv st)
    (h : update W H st = some res) :
    SizeInv res ∧ res.current = st.current := by
  unfold update at h
  rw [Option.bind_eq_some] at h
  obtain ⟨st1, h1, h⟩ := h
  obtain ⟨r1, _, r3⟩ := tickBodies_sizeInv W H st.creatures st st1 hinv.1 hinv h1
  simp only [] at h
  split at h <;>
  · simp only [Option.some.injEq] at h
    subst h
    exact ⟨r1, r3⟩

lemma tier01_mem :
    CREATURE_SIZES.getD 0 0 ∈ CREATURE_SIZES ∧ CREATURE_SIZES.getD 1 0 ∈ CREATURE_SIZES := by
  norm_num [CREATURE_SIZES]

lemma createNewCreature_size (W : ℝ) (coin : Bool) :
    (createNewCreature W coin).size = CREATURE_SIZES.getD 0 0 ∨
    (createNewCreature W coin).size = CREATURE_SIZES.getD 1 0 := by
  cases coin <;> simp [createNewCreature, mkCreature]

lemma dropCreature_sizeInv (W r : ℝ) (coin : Bool) (st : GState) (hinv : SizeInv st) :
    SizeInv (dropCreature W r coin st) := by
  unfold dropCreature
  cases hc : st.current with
  | none => exact hinv
  | some c =>
    refine ⟨?_, ?_, ?_⟩
    · intro k hk
      simp only [List.mem_append, List.mem_singleton] at hk
      rcases hk with hk | hk
      · exact lt_trans (hinv.1 k hk) (Nat.lt_succ_self _)
      · simp [hk]
    · intro k hk
      dsimp only at hk ⊢
      rcases eq_or_ne k st.nextId with rfl | hne
      · simp only [Function.update_same]
        show c.size ∈ CREATURE_SIZES
        rcases hinv.2.2 c hc with h1 | h1 <;> rw [h1]
        · exact tier01_mem.1
        · exact tier01_mem.2
      · simp only [Function.update_noteq hne]
        exact hinv.2.1 k (by omega)
    · intro c' hc'
      simp only [Option.some.injEq] at hc'
      subst hc'
      exact createNewCreature_size W coin

lemma initState_sizeInv (W : ℝ) (b0 : ℕ) (coin : Bool) : SizeInv (initState W b0 coin) := by
  refine ⟨by simp [initState], by simp [initState], ?_⟩
  intro c hc
  simp only [initState, Option.some.injEq] at hc
  subst hc
  exact createNewCreature_size W coin

lemma mousemove_sizeInv (W mx : ℝ) (st : GState) (hinv : SizeInv st) :
    SizeInv (mousemoveHandler W mx st) := by
  unfold mousemoveHandler
  cases hc : st.current with
  | none => exact hinv
  | some c =>
    split_ifs with hg
    · refine ⟨hinv.1, hinv.2.1, ?_⟩
      intro c' hc'
      simp only [Option.some.injEq] at hc'
      subst hc'
      exact hinv.2.2 c hc
    · exact hinv

lemma keydown_sizeInv (W r : ℝ) (coin : Bool) (k : Key) (st : GState) (hinv : SizeInv st) :
    SizeInv (keydownHandler W r coin k st) := by
  unfold keydownHandler
  cases hc : st.current with
  | none => exact hinv
  | some c =>
    split_ifs with hg
    · cases k with
      | left =>
        refine ⟨hinv.1, hinv.2.1, ?_⟩
        intro c' hc'
        simp only [Option.some.injEq] at hc'
        subst hc'
        exact hinv.2.2 c hc
      | right =>
        refine ⟨hinv.1, hinv.2.1, ?_⟩
        intro c' hc'
        simp only [Option.some.injEq] at hc'
        subst hc'
        exact hinv.2.2 c hc
      | space => exact dropCreature_sizeInv W r coin st hinv
    · exact hinv

lemma resetGame_sizeInv (W H : ℝ) (coin : Bool) (st st' : GState) (hinv : SizeInv st)
    (h : resetGame W H coin st = some st') : SizeInv st' := by
  unfold resetGame at h
  refine (update_sizeInv W H
    { st with creatures := [], gameOver := false, score := 0,
              current := some (createNewCreature W coin) }
    st' ⟨by simp, hinv.2.1, ?_⟩ h).1
  intro c hc
  simp only [Option.some.injEq] at hc
  subst hc
  exact createNewCreature_size W coin

lemma reachable_sizeInv (W H : ℝ) (b0 : ℕ) (st : GState) (h : Reachable W H b0 st) :
    SizeInv st := by
  induction h with
  | init coin => exact initState_sizeInv W b0 coin
  | tick h hg hstep ih => exact (update_sizeInv _ _ _ _ ih hstep).1
  | click h coin r hr0 hr1 hstep ih =>
    unfold clickHandler at hstep
    split_ifs at hstep with hg
    · exact resetGame_sizeInv _ _ _ _ _ ih hstep
    · simp only [Option.some.injEq] at hstep
      subst hstep
      exact dropCreature_sizeInv _ _ _ _ ih
  | touch h coin r hr0 hr1 ih => exact dropCreature_sizeInv _ _ _ _ ih
  | key h k coin r hr0 hr1 ih => exact keydown_sizeInv _ _ _ _ _ ih
  | mouse h mx ih => exact mousemove_sizeInv _ _ _ ih


/-- C4: in every reachable state every settled body's size and the pending
body's size lie on the tier ladder, the pending body is tier 0 or tier 1, and
no body's size exceeds the topmost tier 300. -/
theorem c4_tier_ladder_invariant (W H : ℝ) (b0 : ℕ) (st : GState)
    (h : Reachable W H b0 st) :
    (∀ i ∈ st.creatures, (st.heap i).size ∈ CREATURE_SIZES) ∧
    (∀ c, st.current = some c →
      c.size = CREATURE_SIZES.getD 0 0 ∨ c.size = CREATURE_SIZES.getD 1 0) ∧
    (∀ i ∈ st.creatures, (st.heap i).size ≤ 300) ∧
    (∀ c, st.current = some c → c.size ∈ CREATURE_SIZES ∧ c.size ≤ 300) := by
  have hinv := reachable_sizeInv W H b0 st h
  refine ⟨fun i hi => hinv.2.1 i (hinv.1 i hi), hinv.2.2,
    fun i hi => (sizes_pos_le _ (hinv.2.1 i (hinv.1 i hi))).2, fun c hc => ?_⟩
  have hmem : c.size ∈ CREATURE_SIZES := by
    rcases hinv.2.2 c hc with h1 | h1 <;> rw [h1]
    · exact tier01_mem.1
    · exact tier01_mem.2
  exact ⟨hmem, (sizes_pos_le _ hmem).2⟩

/-- Witness for C4 at the initial state. -/
theorem c4_tier_ladder_invariant_witness :
    (∀ i ∈ (initState 400 0 true).creatures,
      ((initState 400 0 true).heap i).size ∈ CREATURE_SIZES) ∧
    (∀ c, (initState 400 0 true).current = some c →
      c.size = CREATURE_SIZES.getD 0 0 ∨ c.size = CREATURE_SIZES.getD 1 0) ∧
    (∀ i ∈ (initState 400 0 true).creatures, ((initState 400 0 true).heap i).size ≤ 300) ∧
    (∀ c, (initState 400 0 true).current = some c →
      c.size ∈ CREATURE_SIZES ∧ c.size ≤ 300) :=
  c4_tier_ladder_invariant 400 600 0 (initState 400 0 true) (Reachable.init true)

lemma pairStep_score (i j : ℕ) (st : GState) (out : ScanOut)
    (h : pairStep i j st = some out) : st.score ≤ out.state.score := by
  rcases pairStep_some _ _ _ _ h with
    ⟨st1, f1, rfl, _, _, hs, _⟩ | ⟨st2, st', rfl, hm, _, _, hs, _⟩
  · exact le_of_eq hs.symm
  · have ms := (mergePair_some _ _ _ _ hm).2.2.1
    show st.score ≤ st'.score
    rw [ms, hs]
    exact Nat.le_add_right _ _

lemma scanLoop_score (selfId : ℕ) (l : List ℕ) (st : GState) (fl : Bool) (res : GState)
    (h : scanLoop selfId l st fl = some res) : st.score ≤ res.score := by
  induction l generalizing st fl with
  | nil =>
    simp only [scanLoop, Option.some.injEq] at h
    subst h
    exact le_of_eq (nudge_fields selfId st fl).2.2.1.symm
  | cons o rest ih =>
    simp only [scanLoop] at h
    cases hps : pairStep selfId o st with
    | none =>
      rw [hps] at h
      simp at h
    | some out =>
      rw [hps] at h
      have hsc := pairStep_score selfId o st out hps
      cases out with
      | go st1 f1 =>
        simp only [] at h
        exact le_trans hsc (ih st1 (fl || f1) h)
      | ret st' =>
        simp only [Option.some.injEq] at h
        subst h
        exact hsc

lemma creatureUpdate_score (W H : ℝ) (selfId : ℕ) (st res : GState)
    (h : creatureUpdate W H selfId st = some res) : st.score ≤ res.score := by
  unfold creatureUpdate checkCollisions at h
  exact scanLoop_score selfId _
    { st with heap := Function.update st.heap selfId (applyBounds W H (integrate (st.heap selfId))) }
    false res h

lemma tickBodies_score (W H : ℝ) (l : List ℕ) (st res : GState)
    (h : tickBodies W H l st = some res) : st.score ≤ res.score := by
  induction l generalizing st with
  | nil =>
    simp only [tickBodies, Option.some.injEq] at h
    subst h
    exact le_refl _
  | cons o rest ih =>
    simp only [tickBodies] at h
    rw [Option.bind_eq_some] at h
    obtain ⟨st1, h1, h⟩ := h
    exact le_trans (creatureUpdate_score W H o st st1 h1) (ih st1 h)

/-- C8: the score is non-decreasing across every tick; every input operation
other than reset leaves it unchanged; and within a tick the score changes only
in the merge branch of the collision loop, each time by exactly
`(tier index of the resulting size) * 10`. -/
theorem c8_score_monotone (W H r : ℝ) (coin : Bool) :
    (∀ st st', update W H st = some st' → st.score ≤ st'.score) ∧
    (∀ st, (dropCreature W r coin st).score = st.score) ∧
    (∀ st, (touchstartHandler W r coin st).score = st.score) ∧
    (∀ st k, (keydownHandler W r coin k st).score = st.score) ∧
    (∀ st mx, (mousemoveHandler W mx st).score = st.score) ∧
    (∀ i j st out, pairStep i j st = some out →
      (∃ st1 f, out = ScanOut.go st1 f ∧ st1.score = st.score) ∨
      (∃ st1, out = ScanOut.ret st1 ∧
        ((st.heap i).size ∈ CREATURE_SIZES → (st.heap i).size < 300 →
          st1.score = st.score + (CREATURE_SIZES.indexOf (st.heap i).size + 1) * 10))) := by
  have hdrop : ∀ st, (dropCreature W r coin st).score = st.score := by
    intro st
    unfold dropCreature
    cases st.current <;> rfl
  refine ⟨?_, hdrop, hdrop, ?_, ?_, ?_⟩
  · intro st st' h
    unfold update at h
    rw [Option.bind_eq_some] at h
    obtain ⟨st1, h1, h⟩ := h
    have := tickBodies_score W H st.creatures st st1 h1
    simp only [] at h
    split at h <;>
    · simp only [Option.some.injEq] at h
      subst h
      exact this
  · intro st k
    unfold keydownHandler
    cases st.current with
    | none => rfl
    | some c =>
      split_ifs with hg
      · cases k with
        | left => rfl
        | right => rfl
        | space => exact hdrop st
      · rfl
  · intro st mx
    unfold mousemoveHandler
    cases st.current with
    | none => rfl
    | some c =>
      split_ifs with hg <;> rfl
  · intro i j st out h
    rcases pairStep_some _ _ _ _ h with
      ⟨st1, f1, rfl, _, _, hs, _⟩ | ⟨st2, st', rfl, hm, _, _, hs, _, _, _, hsz, hsame, hlt⟩
    · exact Or.inl ⟨st1, f1, rfl, hs⟩
    · refine Or.inr ⟨st', rfl, fun hmem htop => ?_⟩
      have ms := (mergePair_some _ _ _ _ hm).2.2.1
      rw [ms, hs, hsz i, (sizes_next _ hmem htop).2]

/-- Witness for C8 at concrete inputs: an empty-arena tick, concrete input
operations, and the self-skip loop iteration. -/
theorem c8_score_monotone_witness :
    ((initState 400 0 true).score ≤ (initState 400 0 true).score) ∧
    ((dropCreature 400 (1/2) true (initState 400 0 true)).score =
      (initState 400 0 true).score) ∧
    ((touchstartHandler 400 (1/2) true (initState 400 0 true)).score =
      (initState 400 0 true).score) ∧
    ((keydownHandler 400 (1/2) true Key.left (initState 400 0 true)).score =
      (initState 400 0 true).score) ∧
    ((mousemoveHandler 400 37 (initState 400 0 true)).score = (initState 400 0 true).score) ∧
    ((∃ st1 f, ScanOut.go (initState 400 0 true) false = ScanOut.go st1 f ∧
        st1.score = (initState 400 0 true).score) ∨
      (∃ st1, ScanOut.go (initState 400 0 true) false = ScanOut.ret st1 ∧
        (((initState 400 0 true).heap 0).size ∈ CREATURE_SIZES →
          ((initState 400 0 true).heap 0).size < 300 →
          st1.score = (initState 400 0 true).score +
            (CREATURE_SIZES.indexOf ((initState 400 0 true).heap 0).size + 1) * 10))) :=
  ⟨(c8_score_monotone 400 600 (1/2) true).1 _ _ rfl,
    (c8_score_monotone 400 600 (1/2) true).2.1 _,
    (c8_score_monotone 400 600 (1/2) true).2.2.1 _,
    (c8_score_monotone 400 600 (1/2) true).2.2.2.1 _ Key.left,
    (c8_score_monotone 400 600 (1/2) true).2.2.2.2.1 _ 37,
    (c8_score_monotone 400 600 (1/2) true).2.2.2.2.2 0 0 _ _ (pairStep_self 0 _)⟩

end

end TinyCreatures
